import Mathlib

/-!
Verification development for the Finoptiv personal-library application
(`src/app.py`): a shallow embedding of its two stores (book catalog and
daily reading log), their mutating handlers, the search filter, the CSV
persistence round trip, and the daily aggregation contract, together with
theorems settling the specified properties.
-/

/-- A book record of the Library Store (`src/app.py` line 100:
columns Title, Author, Genre, Pages, Status).  `Pages` comes from a
numeric input widget, so it is an integer. -/
structure Book where
  title : String
  author : String
  genre : String
  pages : Int
  status : String
deriving DecidableEq, Repr

/-- The Library Store together with the persisted content of its backing
file (`library.csv`).  Every mutating handler in `src/app.py` rewrites the
whole file via `save_data`, so the file is modelled as the list of records
it holds. -/
structure LibState where
  books : List Book
  file : List Book
deriving DecidableEq, Repr

/-- A row of the Reading Log Store (`src/app.py` line 102:
columns Date, Book Title, Pages Read, Time Spent (min)). -/
structure LogEntry where
  date : String
  bookTitle : String
  pagesRead : Nat
  timeSpentMin : Nat
deriving DecidableEq, Repr

/-- One row of the log-entry form kept in `st.session_state.reading_log_entries`
(`src/app.py` line 106): a book title plus pages and minutes. -/
structure RawEntry where
  book : String
  pages : Nat
  time : Nat
deriving DecidableEq, Repr

/-- The Reading Log Store, the persisted content of `daily_log.csv`, and a
counter of how many times `save_data` has been called on the log file
(used to state that a submission persists exactly once). -/
structure LogState where
  log : List LogEntry
  file : List LogEntry
  saves : Nat
deriving DecidableEq, Repr

/-- The Add-New-Book submit handler (`src/app.py` lines 294-301).
The source guards with Python truthiness, `if title and author and pages
and genre:` — an empty string and the integer 0 are falsy, everything
else (including negative integers) is truthy; `status` is never checked
(it comes from a select box).  On success it appends the record and
rewrites the file; on failure it shows an inline error and leaves the
store and the file untouched.  Returns the new state and a success flag. -/
def addBook (title author genre : String) (pages : Int) (status : String)
    (st : LibState) : LibState × Bool :=
  if title != "" && author != "" && pages != 0 && genre != "" then
    let books := st.books ++ [{ title := title, author := author, genre := genre,
                                pages := pages, status := status }]
    ({ books := books, file := books }, true)
  else
    (st, false)

/-- The Confirm-Delete handler (`src/app.py` lines 275-279):
`library_df.drop(index).reset_index(drop=True)` followed by `save_data`.
Row labels are always `0..n-1` (every load, concat and delete re-ranges
the index), so `drop(index)` removes the row at that position; pandas
raises `KeyError` when the label is absent. -/
def deleteBook (st : LibState) (idx : Nat) : Except String LibState :=
  if idx < st.books.length then
    Except.ok { books := st.books.eraseIdx idx, file := st.books.eraseIdx idx }
  else
    Except.error "KeyError"

/-- The Library-page status update (`src/app.py` lines 350-353):
`if new_status != row['Status']:` then `library_df.loc[index, 'Status'] =
new_status` and `save_data`.  When the chosen status equals the current
one nothing runs at all.  The handler executes once per existing row, so
an out-of-range index never occurs; it is modelled as a no-op. -/
def statusUpdate (st : LibState) (index : Nat) (newStatus : String) : LibState :=
  match st.books[index]? with
  | none => st
  | some b =>
    if newStatus != b.status then
      let books := st.books.set index { b with status := newStatus }
      { books := books, file := books }
    else
      st

/-- Stamping of one form row with the current date
(`src/app.py` line 228: `{"Date": str(date.today()), "Book Title": entry['book'],
"Pages Read": entry['pages'], "Time Spent (min)": entry['time']}`). -/
def stampEntry (today : String) (r : RawEntry) : LogEntry :=
  { date := today, bookTitle := r.book, pagesRead := r.pages, timeSpentMin := r.time }

/-- The Submit-All-Log-Entries handler (`src/app.py` lines 226-233): the
loop concatenates one stamped row per form entry onto `log_df`, and
`save_data` runs exactly once, after the loop.  No check against the
Library Store is made for `entry['book']`. -/
def submitLogEntries (today : String) (entries : List RawEntry) (st : LogState) :
    LogState :=
  let newLog := entries.foldl (fun log r => log ++ [stampEntry today r]) st.log
  { log := newLog, file := newLog, saves := st.saves + 1 }

/-- Tokens of the regular-expression fragment needed to model the Search
page.  The pattern strings that arise there are search queries; the model
covers patterns built from literal characters, `.` (any character but
newline), `^` (start of string) and `$` (end of string, or just before a
final newline) — the fragment sufficient for every pattern this
development evaluates.  Quantifiers, classes, groups and escapes are
outside the model. -/
inductive RTok where
  | lit (c : Char)
  | dot
  | bos
  | eos
deriving DecidableEq, Repr

/-- Reading a pattern string as a token list (the modelled fragment of
Python `re` compilation). -/
def parseTokens (p : List Char) : List RTok :=
  p.map fun c =>
    if c = '.' then RTok.dot
    else if c = Char.ofNat 94 then RTok.bos
    else if c = Char.ofNat 36 then RTok.eos
    else RTok.lit c

/-- Whether the token list matches the string `s` starting at position
`i` (the modelled fragment of Python `re` matching, no MULTILINE or
DOTALL flags). -/
def tokensMatch : List RTok → List Char → Nat → Bool
  | [], _, _ => true
  | RTok.lit c :: ts, s, i =>
    match s.drop i with
    | [] => false
    | d :: _ => d == c && tokensMatch ts s (i + 1)
  | RTok.dot :: ts, s, i =>
    match s.drop i with
    | [] => false
    | d :: _ => d != '\n' && tokensMatch ts s (i + 1)
  | RTok.bos :: ts, s, i => i == 0 && tokensMatch ts s i
  | RTok.eos :: ts, s, i =>
    (i == s.length || (i + 1 == s.length && s.getD i ' ' == '\n')) &&
      tokensMatch ts s i

/-- Model of `re.search` as used by `pandas.Series.str.contains` (the
default `regex=True` of `str.contains`): the pattern matches starting at
some position of the string. -/
def reSearch (pat : String) (s : String) : Bool :=
  (List.range (s.data.length + 1)).any fun i => tokensMatch (parseTokens pat.data) s.data i

/-- Model of Python `str.lower()` as the per-character lowercasing map
(exact for the basic-latin data this development evaluates; Unicode
special casing is outside the model). -/
def lowerStr (s : String) : String :=
  String.mk (s.data.map Char.toLower)

/-- The per-row predicate of the Search page (`src/app.py` lines 363-367):
`Title.str.lower().str.contains(query) | Author... | Genre...`.  The query
passed in is already lowercased by the caller. -/
def bookMatches (query : String) (b : Book) : Bool :=
  reSearch query (lowerStr b.title) || reSearch query (lowerStr b.author) ||
    reSearch query (lowerStr b.genre)

/-- The Search page filter (`src/app.py` lines 361-367): the query is
lowercased (`search_query.lower()`) and each of Title, Author, Genre is
lowercased and tested with `str.contains`. -/
def searchBooks (q : String) (books : List Book) : List Book :=
  books.filter (bookMatches (lowerStr q))

/-- The whole Search page (`src/app.py` lines 360-372): with an empty
query no filtering runs at all (`if search_query:`), otherwise the
filtered result is rendered. -/
def searchPage (q : String) (books : List Book) : Option (List Book) :=
  if q = "" then none else some (searchBooks q books)

/-- Literal (non-regex) substring test, used to state what the spec calls
"substring match": `small` occurs contiguously inside `big`. -/
def isSubstringOf (small big : List Char) : Bool :=
  (List.range (big.length + 1)).any fun i => small.isPrefixOf (big.drop i)

/-- The metacharacters of Python regular expressions.  A query containing
none of these is interpreted by `re` as its literal self. -/
def metas : List Char :=
  ['.', Char.ofNat 94, Char.ofNat 36, '*', '+', '?', Char.ofNat 123,
   Char.ofNat 125, '[', ']', '(', ')', '|', Char.ofNat 92]

/-- Modelled from the spec: the Daily Aggregator's `aggregateFor` (§4.3)
is absent from this variant's source — the Dashboard KPIs at
`src/app.py` lines 172-179 sum the whole log without any date filter,
and no per-date, per-title grouping appears in `src/app.py`.  Following
the spec's words: filter the log to entries of the given date, then fold
them into groups keyed by Book Title in order of first occurrence,
summing Pages Read and Time Spent per group. -/
def insertEntry (gs : List (String × Nat × Nat)) (e : LogEntry) :
    List (String × Nat × Nat) :=
  match gs with
  | [] => [(e.bookTitle, e.pagesRead, e.timeSpentMin)]
  | (t, p, m) :: rest =>
    if t = e.bookTitle then (t, p + e.pagesRead, m + e.timeSpentMin) :: rest
    else (t, p, m) :: insertEntry rest e

/-- Modelled from the spec: `aggregateFor(date)` of §4.3 (see
`insertEntry` for what is missing from the source): filters the Reading
Log Store to entries whose Date equals the given date and groups them by
Book Title with summed Pages Read and Time Spent. -/
def aggregateFor (d : String) (log : List LogEntry) : List (String × Nat × Nat) :=
  (log.filter fun e => e.date == d).foldl insertEntry []

/-- Looking a title up in an aggregation result. -/
def lookupAgg (t : String) : List (String × Nat × Nat) → Option (Nat × Nat)
  | [] => none
  | (t', p, m) :: rest => if t' = t then some (p, m) else lookupAgg t rest

/-- The log entries of a given date and book title. -/
def entriesFor (d t : String) (log : List LogEntry) : List LogEntry :=
  log.filter fun e => e.date == d && e.bookTitle == t

/-- Total pages read over a list of log entries. -/
def pagesTotal (es : List LogEntry) : Nat := (es.map LogEntry.pagesRead).sum

/-- Total minutes spent over a list of log entries. -/
def minutesTotal (es : List LogEntry) : Nat := (es.map LogEntry.timeSpentMin).sum

/-- A sample book record used to instantiate hypotheses at concrete inputs. -/
def dune : Book := ⟨"Dune", "Frank Herbert", "SciFi", 412, "Read"⟩

/-- A second sample book record. -/
def emma : Book := ⟨"Emma", "Jane Austen", "Classic", 474, "Not Started"⟩

/-- A one-book library whose in-memory store and backing file agree. -/
def duneShelf : LibState := ⟨[dune], [dune]⟩

/-- A two-book library whose in-memory store and backing file agree. -/
def twoShelf : LibState := ⟨[dune, emma], [dune, emma]⟩

/-- A book whose Author field contains a regex metacharacter. -/
def oddAuthorBook : Book := ⟨"The Title", "a$b", "Mystery", 100, "Read"⟩

-- ======================================================================
-- Theorems
-- ======================================================================

theorem foldl_append_stamp (today : String) (es : List RawEntry) (acc : List LogEntry) :
    es.foldl (fun log r => log ++ [stampEntry today r]) acc =
      acc ++ es.map (stampEntry today) := by
  induction es generalizing acc with
  | nil => simp
  | cons e es ih => simp [ih]

/-- Claim C6: a submission of k log entries stamps each with the current
date, appends all k to the Reading Log Store (its length grows by
exactly k), persists the log exactly once for the whole submission, and
does so for every entry list — no check that a title exists in the
Library Store is involved (the result is the same whether or not any
`entries` title occurs in the library). -/
theorem submitLogEntries_appends_all_and_saves_once (today : String)
    (entries : List RawEntry) (st : LogState) :
    (submitLogEntries today entries st).log = st.log ++ entries.map (stampEntry today) ∧
    (submitLogEntries today entries st).log.length = st.log.length + entries.length ∧
    (submitLogEntries today entries st).file = (submitLogEntries today entries st).log ∧
    (submitLogEntries today entries st).saves = st.saves + 1 := by
  refine ⟨?_, ?_, rfl, rfl⟩
  · simp [submitLogEntries, foldl_append_stamp]
  · simp [submitLogEntries, foldl_append_stamp]

/-- Claim C7: setting a book's Status to its current value leaves the
whole state — in particular the persisted file's content — unchanged:
the handler's guard `new_status != row['Status']` is false, so nothing
is written at all. -/
theorem statusUpdate_same_status_noop (st : LibState) (i : Nat) (b : Book)
    (h : st.books[i]? = some b) : statusUpdate st i b.status = st := by
  simp [statusUpdate, h]

/-- Witness for C7 at a concrete input. -/
theorem statusUpdate_same_status_noop_witness :
    statusUpdate duneShelf 0 "Read" = duneShelf :=
  statusUpdate_same_status_noop duneShelf 0 dune rfl

/-- Claim C8: the status update modifies only the Status field of the
identified record — its Title, Author, Genre and Pages are kept, and
every other record (and the store's length) is untouched. -/
theorem statusUpdate_frame (st : LibState) (i : Nat) (s : String) (b : Book)
    (h : st.books[i]? = some b) :
    (statusUpdate st i s).books[i]? = some ⟨b.title, b.author, b.genre, b.pages, s⟩ ∧
    (∀ j, j ≠ i → (statusUpdate st i s).books[j]? = st.books[j]?) ∧
    (statusUpdate st i s).books.length = st.books.length := by
  have hi : i < st.books.length := (List.getElem?_eq_some_iff.mp h).1
  by_cases hs : s = b.status
  · have hno : statusUpdate st i s = st := by
      simp [statusUpdate, h, hs]
    rw [hno, hs, h]
    exact ⟨rfl, fun j _ => rfl, rfl⟩
  · have hset : statusUpdate st i s =
        { books := st.books.set i { b with status := s },
          file := st.books.set i { b with status := s } } := by
      simp only [statusUpdate, h]
      rw [if_pos (bne_iff_ne.mpr hs)]
    rw [hset]
    refine ⟨?_, fun j hj => ?_, by simp⟩
    · rw [List.getElem?_set_self hi]
    · exact List.getElem?_set_ne (Ne.symm hj)

/-- Witness for C8 at a concrete input: updating record 0 of a two-book
shelf keeps its other fields, record 1, and the length. -/
theorem statusUpdate_frame_witness :
    (statusUpdate twoShelf 0 "Reading").books[0]? =
      some ⟨dune.title, dune.author, dune.genre, dune.pages, "Reading"⟩ ∧
    (statusUpdate twoShelf 0 "Reading").books[1]? = twoShelf.books[1]? ∧
    (statusUpdate twoShelf 0 "Reading").books.length = twoShelf.books.length :=
  ⟨(statusUpdate_frame twoShelf 0 "Reading" dune rfl).1,
   (statusUpdate_frame twoShelf 0 "Reading" dune rfl).2.1 1 (by decide),
   (statusUpdate_frame twoShelf 0 "Reading" dune rfl).2.2⟩

/-- Claim C4: deleting a present row index removes exactly that record
(the store becomes the rows before it followed by the rows after it, so
its size decreases by exactly 1) and persists; deleting an absent index
fails — pandas `drop` raises `KeyError`, the not-found failure. -/
theorem deleteBook_removes_exactly_one (st : LibState) (idx : Nat) :
    if idx < st.books.length then
      deleteBook st idx =
        Except.ok { books := st.books.take idx ++ st.books.drop (idx + 1),
                    file := st.books.take idx ++ st.books.drop (idx + 1) } ∧
      (st.books.take idx ++ st.books.drop (idx + 1)).length + 1 = st.books.length
    else deleteBook st idx = Except.error "KeyError" := by
  by_cases hlt : idx < st.books.length
  · rw [if_pos hlt]
    constructor
    · simp [deleteBook, hlt, List.eraseIdx_eq_take_drop_succ]
    · simp only [List.length_append, List.length_take, List.length_drop]
      omega
  · rw [if_neg hlt]
    simp [deleteBook, hlt]

/-- Claim C2 (amended): the add handler fails, leaving the store and the
backing file untouched, whenever the title, author or genre is the empty
string or the page count is 0 — the falsy values of the source's
truthiness guard. -/
theorem addBook_rejects_empty_fields (title author genre : String) (pages : Int)
    (status : String) (st : LibState)
    (h : title = "" ∨ author = "" ∨ genre = "" ∨ pages = 0) :
    addBook title author genre pages status st = (st, false) := by
  rcases h with h | h | h | h <;> subst h <;> simp [addBook]

/-- Witness for C2 at the concrete input named by the spec:
`add("", "Author", "Genre", 100, "Read")` fails and leaves the one-book
store (count and file) unchanged. -/
theorem addBook_rejects_empty_fields_witness :
    addBook "" "Author" "Genre" 100 "Read" duneShelf = (duneShelf, false) :=
  addBook_rejects_empty_fields "" "Author" "Genre" 100 "Read" duneShelf (Or.inl rfl)

/-- Counterexample to C2 as stated: a negative page count is ≤ 0, yet the
truthiness guard accepts it (in Python only 0 is falsy among integers)
and the record is appended — the store grows.  (Through the UI this
input is unreachable: the page widget enforces a minimum of 1.) -/
theorem addBook_accepts_negative_pages :
    ((-5 : Int) ≤ 0) ∧
    (addBook "Ghost" "Anon" "None" (-5) "Read" ⟨[], []⟩).2 = true ∧
    (addBook "Ghost" "Anon" "None" (-5) "Read" ⟨[], []⟩).1.books.length = 1 := by
  refine ⟨by norm_num, rfl, rfl⟩

/-- Claim C9: this variant checks no title uniqueness — adding a book
whose title already occurs in the store (all fields valid) succeeds,
appends a second record, and afterwards at least two records carry that
title. -/
theorem addBook_allows_duplicate_title (t a g : String) (p : Int) (s : String)
    (st : LibState) (b : Book) (hb : b ∈ st.books) (hbt : b.title = t)
    (ht : t ≠ "") (ha : a ≠ "") (hg : g ≠ "") (hp : 0 < p) :
    (addBook t a g p s st).2 = true ∧
    (addBook t a g p s st).1.books = st.books ++ [⟨t, a, g, p, s⟩] ∧
    2 ≤ ((addBook t a g p s st).1.books.filter fun bk => bk.title == t).length := by
  have hcond : (t != "" && a != "" && p != 0 && g != "") = true := by
    simp only [Bool.and_eq_true, bne_iff_ne, ne_eq]
    exact ⟨⟨⟨ht, ha⟩, by omega⟩, hg⟩
  have hbf : b ∈ st.books.filter (fun bk => bk.title == t) :=
    List.mem_filter.mpr ⟨hb, by simp [hbt]⟩
  have h1 : 1 ≤ (st.books.filter fun bk => bk.title == t).length :=
    List.length_pos.mpr (List.ne_nil_of_mem hbf)
  refine ⟨?_, ?_, ?_⟩
  · simp [addBook, hcond]
  · simp [addBook, hcond]
  · simp only [addBook, hcond, if_pos, List.filter_append]
    simp only [List.length_append]
    have : ((⟨t, a, g, p, s⟩ : Book).title == t) = true := by simp
    simp [List.filter_cons, this]
    omega

/-- Witness for C9 at a concrete input: adding a second "Dune" to a shelf
already holding one succeeds and leaves two records titled "Dune". -/
theorem addBook_allows_duplicate_title_witness :
    (addBook "Dune" "X" "Y" 7 "Reading" duneShelf).2 = true ∧
    (addBook "Dune" "X" "Y" 7 "Reading" duneShelf).1.books =
      duneShelf.books ++ [⟨"Dune", "X", "Y", 7, "Reading"⟩] ∧
    2 ≤ ((addBook "Dune" "X" "Y" 7 "Reading" duneShelf).1.books.filter
          fun bk => bk.title == "Dune").length :=
  addBook_allows_duplicate_title "Dune" "X" "Y" 7 "Reading" duneShelf dune
    (by simp [duneShelf]) rfl (by decide) (by decide) (by decide) (by decide)

theorem tokensMatch_lit_eq_isPrefixOf (p : List Char) :
    ∀ (s : List Char) (i : Nat), tokensMatch (p.map RTok.lit) s i = p.isPrefixOf (s.drop i) := by
  induction p with
  | nil => intro s i; simp [tokensMatch, List.isPrefixOf]
  | cons c p ih =>
    intro s i
    cases hdrop : s.drop i with
    | nil => simp [tokensMatch, hdrop, List.isPrefixOf]
    | cons d rest =>
      have hrest : s.drop (i + 1) = rest := by
        rw [← List.tail_drop, hdrop]
        rfl
      simp only [List.map_cons, tokensMatch, hdrop, ih s (i + 1), hrest]
      show (d == c && p.isPrefixOf rest) = (c == d && p.isPrefixOf rest)
      by_cases hdc : d = c
      · subst hdc; rfl
      · rw [beq_eq_false_iff_ne.mpr hdc, beq_eq_false_iff_ne.mpr (Ne.symm hdc)]

theorem parseTokens_of_no_metas (p : List Char) (h : ∀ c ∈ p, c ∉ metas) :
    parseTokens p = p.map RTok.lit := by
  apply List.map_congr_left
  intro c hc
  have hm := h c hc
  simp only [metas, List.mem_cons, List.not_mem_nil, or_false, not_or] at hm
  simp [hm.1, hm.2.1, hm.2.2.1]

theorem reSearch_eq_substring (q s : String) (h : ∀ c ∈ q.data, c ∉ metas) :
    reSearch q s = isSubstringOf q.data s.data := by
  unfold reSearch isSubstringOf
  simp only [parseTokens_of_no_metas q.data h, tokensMatch_lit_eq_isPrefixOf]

theorem toLower_char_not_meta (c : Char) (h : c ∉ metas) : c.toLower ∉ metas := by
  simp only [Char.toLower]
  split
  · rename_i hc
    obtain ⟨h1, h2⟩ := hc
    interval_cases hn : c.toNat <;> decide
  · exact h

/-- Claim C5 (amended): for every nonempty query containing no regex
metacharacter, search returns a book whenever the lowercased query is a
substring of its lowercased Title, Author or Genre (OR-across-fields,
case-insensitive) — in particular a query matching only the Author still
returns the book. -/
theorem search_finds_substring_without_metachars (q : String) (books : List Book)
    (b : Book) (hq : q ≠ "") (hmeta : ∀ c ∈ q.data, c ∉ metas) (hb : b ∈ books)
    (hsub : isSubstringOf (lowerStr q).data (lowerStr b.title).data = true ∨
            isSubstringOf (lowerStr q).data (lowerStr b.author).data = true ∨
            isSubstringOf (lowerStr q).data (lowerStr b.genre).data = true) :
    b ∈ searchBooks q books ∧ searchPage q books = some (searchBooks q books) := by
  have hmetaLow : ∀ c ∈ (lowerStr q).data, c ∉ metas := by
    intro c hc
    have hc' : c ∈ q.data.map Char.toLower := hc
    rcases List.mem_map.mp hc' with ⟨d, hd, rfl⟩
    exact toLower_char_not_meta d (hmeta d hd)
  refine ⟨?_, by simp [searchPage, hq]⟩
  apply List.mem_filter.mpr
  refine ⟨hb, ?_⟩
  unfold bookMatches
  rcases hsub with h | h | h
  · rw [reSearch_eq_substring (lowerStr q) (lowerStr b.title) hmetaLow, h]
    rfl
  · rw [reSearch_eq_substring (lowerStr q) (lowerStr b.author) hmetaLow, h]
    simp
  · rw [reSearch_eq_substring (lowerStr q) (lowerStr b.genre) hmetaLow, h]
    simp

/-- Witness for C5 at a concrete input: the query "frank" is a substring
of the Author only, and the book is returned. -/
theorem search_finds_substring_without_metachars_witness :
    dune ∈ searchBooks "frank" [dune] ∧
    searchPage "frank" [dune] = some (searchBooks "frank" [dune]) :=
  search_finds_substring_without_metachars "frank" [dune] dune (by decide)
    (by decide) (by simp) (Or.inr (Or.inl (by decide)))

/-- Counterexample to C5 as stated: the query "a$b" is a case-insensitive
substring of the Author "a$b", yet the book is not returned — `$` is a
regex end-anchor under `str.contains`, so the pattern matches nowhere. -/
theorem search_misses_author_with_metachar :
    isSubstringOf (lowerStr "a$b").data (lowerStr oddAuthorBook.author).data = true ∧
    searchBooks "a$b" [oddAuthorBook] = [] ∧
    searchPage "a$b" [oddAuthorBook] = some [] := by
  decide

/-- Claim C10: search interprets the query as a regular expression, not a
literal substring — the query "." (a regex metacharacter) returns a book
although "." occurs literally in none of its lowercased Title, Author or
Genre. -/
theorem search_regex_not_literal :
    '.' ∈ ("." : String).data ∧
    searchBooks "." [dune] = [dune] ∧
    isSubstringOf (lowerStr ".").data (lowerStr dune.title).data = false ∧
    isSubstringOf (lowerStr ".").data (lowerStr dune.author).data = false ∧
    isSubstringOf (lowerStr ".").data (lowerStr dune.genre).data = false := by
  decide

theorem lookupAgg_insertEntry (t : String) (e : LogEntry)
    (gs : List (String × Nat × Nat)) :
    lookupAgg t (insertEntry gs e) =
      if e.bookTitle = t then
        some (match lookupAgg t gs with
              | none => (e.pagesRead, e.timeSpentMin)
              | some (p, m) => (p + e.pagesRead, m + e.timeSpentMin))
      else lookupAgg t gs := by
  induction gs with
  | nil => simp [insertEntry, lookupAgg]
  | cons g rest ih =>
    obtain ⟨t', p, m⟩ := g
    by_cases h1 : t' = e.bookTitle
    · by_cases h2 : e.bookTitle = t
      · have h2' : t' = t := h1.trans h2
        simp [insertEntry, lookupAgg, h1, h2, h2']
      · have h2' : ¬ t' = t := fun hh => h2 (h1.symm.trans hh)
        simp [insertEntry, lookupAgg, h1, h2, h2']
    · by_cases h2 : t' = t
      · have h3 : ¬ e.bookTitle = t := fun hh => h1 (h2.trans hh.symm)
        have h1' : ¬ t = e.bookTitle := fun hh => h3 hh.symm
        simp [insertEntry, lookupAgg, h1, h2, h3, h1']
      · simp [insertEntry, lookupAgg, h1, h2, ih]

theorem lookupAgg_foldl (t : String) :
    ∀ (es : List LogEntry) (gs : List (String × Nat × Nat)),
      lookupAgg t (es.foldl insertEntry gs) =
        match lookupAgg t gs with
        | some (p, m) =>
            some (p + pagesTotal (es.filter fun e => e.bookTitle == t),
                  m + minutesTotal (es.filter fun e => e.bookTitle == t))
        | none =>
            if (es.filter fun e => e.bookTitle == t) = [] then none
            else some (pagesTotal (es.filter fun e => e.bookTitle == t),
                       minutesTotal (es.filter fun e => e.bookTitle == t)) := by
  intro es
  induction es with
  | nil =>
    intro gs
    cases hg : lookupAgg t gs with
    | none => simp [hg]
    | some pm => obtain ⟨p, m⟩ := pm; simp [hg, pagesTotal, minutesTotal]
  | cons e es ih =>
    intro gs
    rw [List.foldl_cons, ih (insertEntry gs e), lookupAgg_insertEntry]
    by_cases he : e.bookTitle = t
    · have hbt : (e.bookTitle == t) = true := by simp [he]
      cases hg : lookupAgg t gs with
      | none =>
        simp [he, hg, hbt, List.filter_cons, pagesTotal, minutesTotal]
      | some pm =>
        obtain ⟨p, m⟩ := pm
        simp [he, hg, hbt, List.filter_cons, pagesTotal, minutesTotal, Nat.add_assoc]
    · have hbt : (e.bookTitle == t) = false := by simp [he]
      simp [he, hbt, List.filter_cons]

/-- Claim C1: `aggregateFor(D)` (modelled from the spec, see
`aggregateFor`) maps each book title to the sums of Pages Read and Time
Spent over exactly the log entries whose Date is D and whose Book Title
is that title — a title appears in the result precisely when such an
entry exists — and on the spec's example log it returns
{"A": (30, 20)}, excluding the entry of the other date. -/
theorem aggregateFor_groups_by_title_and_date :
    (∀ (d t : String) (log : List LogEntry),
      lookupAgg t (aggregateFor d log) =
        if entriesFor d t log = [] then none
        else some (pagesTotal (entriesFor d t log), minutesTotal (entriesFor d t log))) ∧
    aggregateFor "2024-05-01"
      [⟨"2024-05-01", "A", 10, 5⟩, ⟨"2024-05-01", "A", 20, 15⟩,
       ⟨"2024-05-02", "A", 1, 1⟩] = [("A", 30, 20)] := by
  constructor
  · intro d t log
    unfold aggregateFor
    rw [lookupAgg_foldl]
    have hcomm : (fun e : LogEntry => e.bookTitle == t && e.date == d) =
        fun e : LogEntry => e.date == d && e.bookTitle == t := by
      funext e
      exact Bool.and_comm _ _
    have hff : ((log.filter fun e => e.date == d).filter fun e => e.bookTitle == t) =
        entriesFor d t log := by
      rw [List.filter_filter, hcomm]
      rfl
    rw [hff]
    rfl
  · decide
